import Mathlib

/-!
Shallow embedding of the stock-consistency core of the POS/inventory manager:
`createInventoryMovement` / `adjustInventory`
(src/server/src/handlers/create_inventory_movement.ts),
`createTransaction` (src/server/src/handlers/create_transaction.ts) and
`updateTransaction` / `handleStatusChange`
(src/server/src/handlers/update_transaction.ts), over a relational state of
products, transactions, transaction items and inventory movements
(src/server/src/db/schema.ts).

Modelling choices, all read off the source:
* integer quantities and stocks are `Int` (the DB columns are `integer`);
  money columns (`numeric(10,2)`) round-trip exactly through the handlers,
  which only subtract them, so they are modelled as `Int` as well;
* timestamps are an abstract `Nat` tick supplied by the caller (`NOW()`);
* a handler body wrapped in `db.transaction` is composed with `runAtomic`,
  which discards the partial state on error (rollback); the status-change
  branch of `updateTransaction` is NOT wrapped in the source, so it is
  modelled as a plain state-passing function whose partial effects persist
  when a later item fails;
* the DB schema declares no foreign keys, so inserts are never rejected by
  referential checks; `serial` primary keys are modelled by a fresh-id
  function for transactions (movement/item rows are only ever appended, so
  their ids are irrelevant and omitted).
-/

namespace StockCore

inductive MovementType
  | stockIn
  | stockOut
  | adjustment
deriving DecidableEq, Repr

inductive TxStatus
  | pending
  | completed
  | cancelled
deriving DecidableEq, Repr

structure InventoryMovement where
  product_id : Nat
  movement_type : MovementType
  quantity : Int
  reference_type : Option String
  reference_id : Option Nat
  notes : Option String
deriving DecidableEq, Repr

structure TransactionRow where
  id : Nat
  customer_id : Option Nat
  user_id : Nat
  total_amount : Int
  discount_amount : Int
  final_amount : Int
  status : TxStatus
  payment_method : Option String
  notes : Option String
  created_at : Nat
  updated_at : Nat
deriving DecidableEq, Repr

structure TransactionItem where
  transaction_id : Nat
  product_id : Nat
  quantity : Int
  unit_price : Int
  total_price : Int
deriving DecidableEq, Repr

/-- The relational state the handlers read and write.  Products are kept as
`(id, stock_quantity)` pairs: the other product columns are never read by the
core handlers except for the name interpolated into an error message. -/
structure DB where
  products : List (Nat × Int)
  transactions : List TransactionRow
  transaction_items : List TransactionItem
  inventory_movements : List InventoryMovement
deriving DecidableEq, Repr

/-- Structured form of the errors the handlers throw (the source throws
`Error` with a message; the message's data fields are carried here). -/
inductive DbError
  | productNotFound (product_id : Nat)
  | transactionNotFound (transaction_id : Nat)
  | insufficientStock (product_id : Nat) (available : Int) (requested : Int)
deriving DecidableEq, Repr

instance {E A : Type} [DecidableEq E] [DecidableEq A] : DecidableEq (Except E A) :=
  fun x y =>
    match x, y with
    | .ok a, .ok b => if h : a = b then .isTrue (by simp [h]) else .isFalse (by simp [h])
    | .error e, .error f => if h : e = f then .isTrue (by simp [h]) else .isFalse (by simp [h])
    | .ok _, .error _ => .isFalse (by simp)
    | .error _, .ok _ => .isFalse (by simp)

/-- `SELECT ... WHERE id = pid LIMIT 1` over the products table. -/
def lookupStock (ps : List (Nat × Int)) (pid : Nat) : Option Int :=
  match ps with
  | [] => none
  | p :: rest => if p.1 = pid then some p.2 else lookupStock rest pid

/-- `UPDATE products SET stock_quantity = v WHERE id = pid`. -/
def setStock (ps : List (Nat × Int)) (pid : Nat) (v : Int) : List (Nat × Int) :=
  ps.map fun p => if p.1 = pid then (p.1, v) else p

/-- `UPDATE products SET stock_quantity = stock_quantity + d WHERE id = pid`
(the SQL-expression form used by `handleStatusChange`). -/
def bumpStock (ps : List (Nat × Int)) (pid : Nat) (d : Int) : List (Nat × Int) :=
  ps.map fun p => if p.1 = pid then (p.1, p.2 + d) else p

/-- `SELECT ... WHERE id = tid` over the transactions table (first row). -/
def lookupTransaction (ts : List TransactionRow) (tid : Nat) : Option TransactionRow :=
  match ts with
  | [] => none
  | t :: rest => if t.id = tid then some t else lookupTransaction rest tid

/-- `SELECT * FROM transaction_items WHERE transaction_id = tid`. -/
def itemsForTransaction (db : DB) (tid : Nat) : List TransactionItem :=
  db.transaction_items.filter fun it => it.transaction_id = tid

/-- Wraps a handler body in `db.transaction`: on error the partial state is
discarded and the original state is returned (rollback). -/
def runAtomic {A : Type} (body : DB → DB × Except DbError A) (db : DB) :
    DB × Except DbError A :=
  match body db with
  | (db1, .ok a) => (db1, .ok a)
  | (_, .error e) => (db, .error e)

/-! ## createInventoryMovement (create_inventory_movement.ts) -/

structure CreateInventoryMovementInput where
  product_id : Nat
  movement_type : MovementType
  quantity : Int
  reference_type : Option String
  reference_id : Option Nat
  notes : Option String
deriving DecidableEq, Repr

/-- The `stockChange` computation of create_inventory_movement.ts lines 23-31. -/
def movementDelta (movement_type : MovementType) (quantity : Int) : Int :=
  match movement_type with
  | .stockIn => quantity
  | .stockOut => -|quantity|
  | .adjustment => quantity

/-- create_inventory_movement.ts `createInventoryMovement`.  The source body
runs inside `db.transaction`, but every check precedes every write, so the
direct encoding already has rollback semantics: an error changes nothing.
Note line 45 of the source persists `input.quantity` verbatim on the ledger
row, not the computed `stockChange`. -/
def createInventoryMovement (input : CreateInventoryMovementInput) (db : DB) :
    DB × Except DbError InventoryMovement :=
  match lookupStock db.products input.product_id with
  | none => (db, .error (.productNotFound input.product_id))
  | some currentStock =>
    let stockChange := movementDelta input.movement_type input.quantity
    let newStock := currentStock + stockChange
    if newStock < 0 then
      (db, .error (.insufficientStock input.product_id currentStock |stockChange|))
    else
      let movement : InventoryMovement :=
        { product_id := input.product_id
          movement_type := input.movement_type
          quantity := input.quantity
          reference_type := input.reference_type
          reference_id := input.reference_id
          notes := input.notes }
      ({ db with
          products := setStock db.products input.product_id newStock
          inventory_movements := db.inventory_movements ++ [movement] },
        .ok movement)

/-- create_inventory_movement.ts `adjustInventory`. -/
def adjustInventory (productId : Nat) (quantity : Int) (notes : Option String)
    (db : DB) : DB × Except DbError InventoryMovement :=
  createInventoryMovement
    { product_id := productId
      movement_type := .adjustment
      quantity := quantity
      reference_type := some "manual"
      reference_id := none
      notes := notes } db

/-! ## createTransaction (create_transaction.ts) -/

structure CreateTransactionItemInput where
  product_id : Nat
  quantity : Int
  unit_price : Int
deriving DecidableEq, Repr

structure CreateTransactionInput where
  customer_id : Option Nat
  user_id : Nat
  total_amount : Int
  discount_amount : Int
  payment_method : Option String
  notes : Option String
  items : List CreateTransactionItemInput
deriving DecidableEq, Repr

/-- The constraints `createTransactionInputSchema` (schema.ts) places on the
numeric fields: positive total, nonnegative discount, and per item a positive
integer quantity and positive unit price. -/
def ValidCreateTransactionInput (input : CreateTransactionInput) : Prop :=
  0 < input.total_amount ∧ 0 ≤ input.discount_amount ∧
    ∀ it ∈ input.items, 0 < it.quantity ∧ 0 < it.unit_price

/-- Fresh `serial` primary key for a new transactions row. -/
def freshTransactionId (db : DB) : Nat :=
  db.transactions.foldr (fun t m => max (t.id + 1) m) 1

/-- The per-item loop of create_transaction.ts lines 30-81: check existence
and stock, insert the item row, write the decremented stock, append the
movement row (which stores `-item.quantity`), then continue. -/
def saleItemsLoop (tid : Nat) (items : List CreateTransactionItemInput)
    (db : DB) : DB × Option DbError :=
  match items with
  | [] => (db, none)
  | item :: rest =>
    match lookupStock db.products item.product_id with
    | none => (db, some (.productNotFound item.product_id))
    | some stock =>
      if stock < item.quantity then
        (db, some (.insufficientStock item.product_id stock item.quantity))
      else
        let db1 : DB :=
          { db with
              transaction_items := db.transaction_items ++
                [{ transaction_id := tid
                   product_id := item.product_id
                   quantity := item.quantity
                   unit_price := item.unit_price
                   total_price := item.unit_price * item.quantity }]
              products := setStock db.products item.product_id (stock - item.quantity)
              inventory_movements := db.inventory_movements ++
                [{ product_id := item.product_id
                   movement_type := .stockOut
                   quantity := -item.quantity
                   reference_type := some "transaction"
                   reference_id := some tid
                   notes := some ("Sale via transaction #" ++ toString tid) }] }
        saleItemsLoop tid rest db1

/-- The transactions row inserted by create_transaction.ts lines 13-25:
status is fixed to `completed`, `final_amount = total - discount`. -/
def saleRow (input : CreateTransactionInput) (now : Nat) (db : DB) :
    TransactionRow :=
  { id := freshTransactionId db
    customer_id := input.customer_id
    user_id := input.user_id
    total_amount := input.total_amount
    discount_amount := input.discount_amount
    final_amount := input.total_amount - input.discount_amount
    status := .completed
    payment_method := input.payment_method
    notes := input.notes
    created_at := now
    updated_at := now }

/-- Body of create_transaction.ts `createTransaction` (the part inside
`db.transaction`): insert the transaction row with status `completed`, then
run the item loop; partial effects are visible here and discarded by
`runAtomic` below. -/
def createTransactionBody (input : CreateTransactionInput) (now : Nat)
    (db : DB) : DB × Except DbError TransactionRow :=
  match saleItemsLoop (freshTransactionId db) input.items
      { db with transactions := db.transactions ++ [saleRow input now db] } with
  | (db2, none) => (db2, .ok (saleRow input now db))
  | (db2, some e) => (db2, .error e)

/-- create_transaction.ts `createTransaction`: the body runs inside
`db.transaction`, so any error rolls every write back. -/
def createTransaction (input : CreateTransactionInput) (now : Nat) (db : DB) :
    DB × Except DbError TransactionRow :=
  runAtomic (createTransactionBody input now) db

/-! ## updateTransaction (update_transaction.ts) -/

structure UpdateTransactionInput where
  id : Nat
  customer_id : Option (Option Nat)
  total_amount : Option Int
  discount_amount : Option Int
  status : Option TxStatus
  payment_method : Option (Option String)
  notes : Option (Option String)
deriving DecidableEq, Repr

/-- The ledger row `handleStatusChange` appends per item when a transaction
moves `completed → cancelled` (update_transaction.ts lines 115-124). -/
def cancellationMovement (tid : Nat) (it : TransactionItem) : InventoryMovement :=
  { product_id := it.product_id
    movement_type := .stockIn
    quantity := it.quantity
    reference_type := some "transaction_cancellation"
    reference_id := some tid
    notes := some ("Stock restored from cancelled transaction " ++ toString tid) }

/-- The ledger row `handleStatusChange` appends per item when a transaction
moves `cancelled → completed` (update_transaction.ts lines 155-164). -/
def completionMovement (tid : Nat) (it : TransactionItem) : InventoryMovement :=
  { product_id := it.product_id
    movement_type := .stockOut
    quantity := it.quantity
    reference_type := some "transaction_completion"
    reference_id := some tid
    notes := some ("Stock reduced for completed transaction " ++ toString tid) }

/-- The `completed → cancelled` loop of update_transaction.ts lines 103-126:
unconditionally add each item's quantity back and append an `in` movement.
Runs on the bare connection — no surrounding transaction. -/
def restoreLoop (tid : Nat) (items : List TransactionItem) (db : DB) : DB :=
  match items with
  | [] => db
  | item :: rest =>
    restoreLoop tid rest
      { db with
          products := bumpStock db.products item.product_id item.quantity
          inventory_movements :=
            db.inventory_movements ++ [cancellationMovement tid item] }

/-- The `cancelled → completed` loop of update_transaction.ts lines 129-166:
check each item's stock, decrement it and append an `out` movement.  Runs on
the bare connection, so on failure the earlier iterations' writes remain. -/
def consumeLoop (tid : Nat) (items : List TransactionItem) (db : DB) :
    DB × Option DbError :=
  match items with
  | [] => (db, none)
  | item :: rest =>
    match lookupStock db.products item.product_id with
    | none => (db, some (.productNotFound item.product_id))
    | some stock =>
      if stock < item.quantity then
        (db, some (.insufficientStock item.product_id stock item.quantity))
      else
        consumeLoop tid rest
          { db with
              products := bumpStock db.products item.product_id (-item.quantity)
              inventory_movements :=
                db.inventory_movements ++ [completionMovement tid item] }

/-- update_transaction.ts `handleStatusChange` lines 90-167. -/
def handleStatusChange (tid : Nat) (currentStatus newStatus : TxStatus)
    (db : DB) : DB × Option DbError :=
  if currentStatus = newStatus then (db, none)
  else
    let items := itemsForTransaction db tid
    if items = [] then (db, none)
    else
      let db1 :=
        if currentStatus = .completed ∧ newStatus = .cancelled then
          restoreLoop tid items db
        else db
      if currentStatus = .cancelled ∧ newStatus = .completed then
        consumeLoop tid items db1
      else (db1, none)

/-- The `SET` object built by update_transaction.ts lines 39-66, applied to a
stored row: provided fields overwrite, `final_amount` is replaced by the
recomputed value exactly when `total_amount` or `discount_amount` was
provided, and `updated_at` is refreshed. -/
def applyTransactionPatch (input : UpdateTransactionInput) (fa : Int)
    (now : Nat) (row : TransactionRow) : TransactionRow :=
  { row with
      customer_id := input.customer_id.getD row.customer_id
      total_amount := input.total_amount.getD row.total_amount
      discount_amount := input.discount_amount.getD row.discount_amount
      status := input.status.getD row.status
      payment_method := input.payment_method.getD row.payment_method
      notes := input.notes.getD row.notes
      final_amount :=
        if input.total_amount.isSome || input.discount_amount.isSome then fa
        else row.final_amount
      updated_at := now }

/-- Lines 22-25 of update_transaction.ts: run `handleStatusChange` exactly
when the patch carries a status different from the stored one. -/
def statusStep (input : UpdateTransactionInput) (current : TransactionRow)
    (db : DB) : DB × Option DbError :=
  match input.status with
  | some s =>
    if s ≠ current.status then handleStatusChange input.id current.status s db
    else (db, none)
  | none => (db, none)

/-- Lines 27-37 of update_transaction.ts: the `final_amount` to persist —
recomputed from the effective total and discount when either is patched,
otherwise the stored value. -/
def updFinalAmount (input : UpdateTransactionInput) (current : TransactionRow) :
    Int :=
  if input.total_amount.isSome || input.discount_amount.isSome then
    input.total_amount.getD current.total_amount -
      input.discount_amount.getD current.discount_amount
  else current.final_amount

/-- update_transaction.ts `updateTransaction` lines 6-87.  The status-change
side effects run before the field update and OUTSIDE any `db.transaction`:
when `handleStatusChange` fails, its partial effects are kept and only the
field update is skipped. -/
def updateTransaction (input : UpdateTransactionInput) (now : Nat) (db : DB) :
    DB × Except DbError TransactionRow :=
  match lookupTransaction db.transactions input.id with
  | none => (db, .error (.transactionNotFound input.id))
  | some current =>
    match statusStep input current db with
    | (db1, some e) => (db1, .error e)
    | (db1, none) =>
      ({ db1 with
          transactions := db1.transactions.map fun t =>
            if t.id = input.id then
              applyTransactionPatch input (updFinalAmount input current) now t
            else t },
        .ok (applyTransactionPatch input (updFinalAmount input current) now current))

/-- The update patch that only changes the status, as sent by the status
buttons of the client's TransactionManagement component. -/
def statusPatch (tid : Nat) (s : TxStatus) : UpdateTransactionInput :=
  { id := tid
    customer_id := none
    total_amount := none
    discount_amount := none
    status := some s
    payment_method := none
    notes := none }

/-! ## Well-formedness of the relational state -/

/-- Integrity facts the storage layer guarantees: stocks are nonnegative (the
property the handlers protect), product primary keys are unique (`serial`
primary key), and item quantities are nonnegative (items are only created by
`createTransaction` from inputs validated to be positive). -/
def Invariant (db : DB) : Prop :=
  (∀ p ∈ db.products, 0 ≤ p.2) ∧
    (db.products.map Prod.fst).Nodup ∧
    ∀ it ∈ db.transaction_items, 0 ≤ it.quantity

instance (db : DB) : Decidable (Invariant db) := by
  unfold Invariant
  infer_instance

instance (input : CreateTransactionInput) :
    Decidable (ValidCreateTransactionInput input) := by
  unfold ValidCreateTransactionInput
  infer_instance

theorem statusPatch_id (tid : Nat) (s : TxStatus) :
    (statusPatch tid s).id = tid := rfl

/-! ## Lemmas about the table primitives -/

theorem setStock_cons_of_eq (p : Nat × Int) (rest : List (Nat × Int)) (pid : Nat)
    (v : Int) (h : p.1 = pid) :
    setStock (p :: rest) pid v = (p.1, v) :: setStock rest pid v := by
  simp [setStock, h]

theorem setStock_cons_of_ne (p : Nat × Int) (rest : List (Nat × Int)) (pid : Nat)
    (v : Int) (h : ¬p.1 = pid) :
    setStock (p :: rest) pid v = p :: setStock rest pid v := by
  simp [setStock, h]

theorem bumpStock_cons_of_eq (p : Nat × Int) (rest : List (Nat × Int)) (pid : Nat)
    (d : Int) (h : p.1 = pid) :
    bumpStock (p :: rest) pid d = (p.1, p.2 + d) :: bumpStock rest pid d := by
  simp [bumpStock, h]

theorem bumpStock_cons_of_ne (p : Nat × Int) (rest : List (Nat × Int)) (pid : Nat)
    (d : Int) (h : ¬p.1 = pid) :
    bumpStock (p :: rest) pid d = p :: bumpStock rest pid d := by
  simp [bumpStock, h]

theorem lookupStock_setStock_self (ps : List (Nat × Int)) (pid : Nat) (v : Int) :
    lookupStock (setStock ps pid v) pid = (lookupStock ps pid).map fun _ => v := by
  induction ps with
  | nil => rfl
  | cons p rest ih =>
    by_cases h : p.1 = pid
    · rw [setStock_cons_of_eq p rest pid v h]
      simp [lookupStock, h]
    · rw [setStock_cons_of_ne p rest pid v h]
      simp only [lookupStock, if_neg h, ih]

theorem lookupStock_setStock_other (ps : List (Nat × Int)) (pid : Nat) (v : Int)
    (q : Nat) (hq : q ≠ pid) :
    lookupStock (setStock ps pid v) q = lookupStock ps q := by
  induction ps with
  | nil => rfl
  | cons p rest ih =>
    by_cases h : p.1 = pid
    · have hpq : ¬p.1 = q := fun hc => hq (hc ▸ h)
      rw [setStock_cons_of_eq p rest pid v h]
      simp only [lookupStock, if_neg hpq, ih]
    · rw [setStock_cons_of_ne p rest pid v h]
      simp only [lookupStock, ih]

theorem lookupStock_bumpStock_self (ps : List (Nat × Int)) (pid : Nat) (d : Int) :
    lookupStock (bumpStock ps pid d) pid = (lookupStock ps pid).map (· + d) := by
  induction ps with
  | nil => rfl
  | cons p rest ih =>
    by_cases h : p.1 = pid
    · rw [bumpStock_cons_of_eq p rest pid d h]
      simp [lookupStock, h]
    · rw [bumpStock_cons_of_ne p rest pid d h]
      simp only [lookupStock, if_neg h, ih]

theorem lookupStock_bumpStock_other (ps : List (Nat × Int)) (pid : Nat) (d : Int)
    (q : Nat) (hq : q ≠ pid) :
    lookupStock (bumpStock ps pid d) q = lookupStock ps q := by
  induction ps with
  | nil => rfl
  | cons p rest ih =>
    by_cases h : p.1 = pid
    · have hpq : ¬p.1 = q := fun hc => hq (hc ▸ h)
      rw [bumpStock_cons_of_eq p rest pid d h]
      simp only [lookupStock, if_neg hpq, ih]
    · rw [bumpStock_cons_of_ne p rest pid d h]
      simp only [lookupStock, ih]

theorem setStock_map_fst (ps : List (Nat × Int)) (pid : Nat) (v : Int) :
    (setStock ps pid v).map Prod.fst = ps.map Prod.fst := by
  induction ps with
  | nil => rfl
  | cons p rest ih =>
    by_cases h : p.1 = pid <;> simp [setStock, h, ih] <;>
      simpa [setStock] using ih

theorem bumpStock_map_fst (ps : List (Nat × Int)) (pid : Nat) (d : Int) :
    (bumpStock ps pid d).map Prod.fst = ps.map Prod.fst := by
  induction ps with
  | nil => rfl
  | cons p rest ih =>
    by_cases h : p.1 = pid <;> simp [bumpStock, h, ih] <;>
      simpa [bumpStock] using ih

theorem exists_of_lookupStock (ps : List (Nat × Int)) (pid : Nat) (s : Int)
    (h : lookupStock ps pid = some s) : ∃ p ∈ ps, p.1 = pid ∧ p.2 = s := by
  induction ps with
  | nil => simp [lookupStock] at h
  | cons p rest ih =>
    by_cases hp : p.1 = pid
    · refine ⟨p, List.mem_cons_self .., hp, ?_⟩
      simpa [lookupStock, hp] using h
    · simp only [lookupStock, if_neg hp] at h
      obtain ⟨q, hq, h1, h2⟩ := ih h
      exact ⟨q, List.mem_cons_of_mem _ hq, h1, h2⟩

theorem lookupStock_isSome_of_mem (ps : List (Nat × Int)) (p : Nat × Int)
    (hp : p ∈ ps) : (lookupStock ps p.1).isSome = true := by
  induction ps with
  | nil => simp at hp
  | cons q rest ih =>
    rcases List.mem_cons.mp hp with h | h
    · subst h
      simp [lookupStock]
    · by_cases hq : q.1 = p.1 <;> simp [lookupStock, hq, ih h]

theorem lookupStock_eq_of_nodup (ps : List (Nat × Int))
    (hnd : (ps.map Prod.fst).Nodup) (p : Nat × Int) (hp : p ∈ ps) :
    lookupStock ps p.1 = some p.2 := by
  induction ps with
  | nil => simp at hp
  | cons q rest ih =>
    simp only [List.map_cons, List.nodup_cons] at hnd
    rcases List.mem_cons.mp hp with h | h
    · subst h
      simp [lookupStock]
    · have hne : ¬q.1 = p.1 := by
        intro hc
        exact hnd.1 (hc ▸ List.mem_map_of_mem Prod.fst h)
      simp only [lookupStock, if_neg hne]
      exact ih hnd.2 h

theorem lookupTransaction_id (ts : List TransactionRow) (tid : Nat)
    (t : TransactionRow) (h : lookupTransaction ts tid = some t) : t.id = tid := by
  induction ts with
  | nil => simp [lookupTransaction] at h
  | cons u rest ih =>
    by_cases hu : u.id = tid
    · simp only [lookupTransaction, if_pos hu, Option.some.injEq] at h
      exact h ▸ hu
    · simp only [lookupTransaction, if_neg hu] at h
      exact ih h

theorem lookupTransaction_map (ts : List TransactionRow) (tid : Nat)
    (g : TransactionRow → TransactionRow) (hg : ∀ t, (g t).id = t.id) :
    lookupTransaction (ts.map g) tid = (lookupTransaction ts tid).map g := by
  induction ts with
  | nil => rfl
  | cons u rest ih =>
    by_cases hu : u.id = tid
    · simp [lookupTransaction, hg, hu]
    · simp [lookupTransaction, hg, hu, ih]

/-! ## Stock-bump algebra -/

/-- The cumulative effect on the products table of restoring (or, negated,
consuming) a list of transaction items, one `bumpStock` per item. -/
def multiBump (items : List TransactionItem) (ps : List (Nat × Int)) :
    List (Nat × Int) :=
  items.foldl (fun acc it => bumpStock acc it.product_id it.quantity) ps

/-- Total quantity the items of a given product contribute. -/
def sumQuantities (pid : Nat) (items : List TransactionItem) : Int :=
  ((items.filter fun it => it.product_id = pid).map fun it => it.quantity).sum

theorem multiBump_cons (it : TransactionItem) (items : List TransactionItem)
    (ps : List (Nat × Int)) :
    multiBump (it :: items) ps =
      multiBump items (bumpStock ps it.product_id it.quantity) := rfl

theorem bumpStock_comm (ps : List (Nat × Int)) (pid1 pid2 : Nat) (d1 d2 : Int) :
    bumpStock (bumpStock ps pid2 d2) pid1 d1 =
      bumpStock (bumpStock ps pid1 d1) pid2 d2 := by
  unfold bumpStock
  rw [List.map_map, List.map_map]
  congr 1
  funext p
  obtain ⟨a, b⟩ := p
  by_cases h1 : a = pid1 <;> by_cases h2 : a = pid2
  · subst h1
    subst h2
    simp [Function.comp]
    omega
  · subst h1
    simp [Function.comp, h2]
  · subst h2
    simp [Function.comp, h1]
  · simp [Function.comp, h1, h2]

theorem bumpStock_cancel (ps : List (Nat × Int)) (pid : Nat) (d : Int) :
    bumpStock (bumpStock ps pid d) pid (-d) = ps := by
  unfold bumpStock
  rw [List.map_map]
  have h : ((fun p : Nat × Int => if p.1 = pid then (p.1, p.2 + -d) else p) ∘
      fun p : Nat × Int => if p.1 = pid then (p.1, p.2 + d) else p) = id := by
    funext p
    obtain ⟨a, b⟩ := p
    by_cases h1 : a = pid <;> simp [Function.comp, h1]
  rw [h, List.map_id]

theorem bumpStock_multiBump (items : List TransactionItem) (ps : List (Nat × Int))
    (pid : Nat) (d : Int) :
    bumpStock (multiBump items ps) pid d = multiBump items (bumpStock ps pid d) := by
  induction items generalizing ps with
  | nil => rfl
  | cons it rest ih =>
    rw [multiBump_cons, multiBump_cons, ih, bumpStock_comm]

theorem lookupStock_multiBump (items : List TransactionItem)
    (ps : List (Nat × Int)) (pid : Nat) :
    lookupStock (multiBump items ps) pid =
      (lookupStock ps pid).map (· + sumQuantities pid items) := by
  induction items generalizing ps with
  | nil =>
    cases h : lookupStock ps pid <;> simp [multiBump, sumQuantities, h]
  | cons it rest ih =>
    rw [multiBump_cons, ih]
    by_cases h : pid = it.product_id
    · rw [h, lookupStock_bumpStock_self]
      cases hl : lookupStock ps it.product_id with
      | none => simp [sumQuantities, List.filter_cons, h.symm, hl]
      | some s =>
        simp [sumQuantities, List.filter_cons, h.symm, hl]
        omega
    · rw [lookupStock_bumpStock_other _ _ _ _ h]
      have hne : ¬it.product_id = pid := fun hc => h hc.symm
      cases hl : lookupStock ps pid <;>
        simp [sumQuantities, List.filter_cons, hne, hl]

theorem sumQuantities_nonneg (pid : Nat) (items : List TransactionItem)
    (h : ∀ it ∈ items, 0 ≤ it.quantity) : 0 ≤ sumQuantities pid items := by
  unfold sumQuantities
  apply List.sum_nonneg
  intro x hx
  obtain ⟨it, hit, rfl⟩ := List.mem_map.mp hx
  exact h it (List.mem_of_mem_filter hit)

/-! ## Nonnegativity preservation of the table primitives -/

theorem setStock_nonneg (ps : List (Nat × Int)) (pid : Nat) (v : Int)
    (hnn : ∀ p ∈ ps, 0 ≤ p.2) (hv : 0 ≤ v) :
    ∀ p ∈ setStock ps pid v, 0 ≤ p.2 := by
  intro p hp
  obtain ⟨q, hq, rfl⟩ := List.mem_map.mp hp
  by_cases h : q.1 = pid
  · simpa [h] using hv
  · simpa [h] using hnn q hq

theorem bumpStock_nonneg_of_nonneg (ps : List (Nat × Int)) (pid : Nat) (d : Int)
    (hnn : ∀ p ∈ ps, 0 ≤ p.2) (hd : 0 ≤ d) :
    ∀ p ∈ bumpStock ps pid d, 0 ≤ p.2 := by
  intro p hp
  obtain ⟨q, hq, rfl⟩ := List.mem_map.mp hp
  by_cases h : q.1 = pid
  · rw [if_pos h]
    have := hnn q hq
    show 0 ≤ q.2 + d
    omega
  · simpa [h] using hnn q hq

theorem bumpStock_nonneg_of_lookup (ps : List (Nat × Int)) (pid : Nat) (d s : Int)
    (hnn : ∀ p ∈ ps, 0 ≤ p.2) (hnd : (ps.map Prod.fst).Nodup)
    (hs : lookupStock ps pid = some s) (h : 0 ≤ s + d) :
    ∀ p ∈ bumpStock ps pid d, 0 ≤ p.2 := by
  intro p hp
  obtain ⟨q, hq, rfl⟩ := List.mem_map.mp hp
  by_cases hqp : q.1 = pid
  · have hl := lookupStock_eq_of_nodup ps hnd q hq
    rw [hqp, hs] at hl
    have hqs : q.2 = s := by
      injection hl.symm
    rw [if_pos hqp]
    show 0 ≤ q.2 + d
    omega
  · simpa [hqp] using hnn q hq

/-! ## Loop characterizations -/

theorem restoreLoop_spec (tid : Nat) (items : List TransactionItem) (db : DB) :
    restoreLoop tid items db =
      { db with
          products := multiBump items db.products
          inventory_movements :=
            db.inventory_movements ++ items.map (cancellationMovement tid) } := by
  induction items generalizing db with
  | nil => simp [restoreLoop, multiBump]
  | cons it rest ih =>
    rw [restoreLoop, ih, multiBump_cons]
    simp

theorem consumeLoop_transactions (tid : Nat) (items : List TransactionItem)
    (db : DB) : (consumeLoop tid items db).1.transactions = db.transactions := by
  induction items generalizing db with
  | nil => rfl
  | cons it rest ih =>
    rw [consumeLoop]
    cases hlk : lookupStock db.products it.product_id with
    | none => rfl
    | some stock =>
      by_cases h : stock < it.quantity
      · simp [h]
      · simpa [h] using ih _

theorem consumeLoop_transaction_items (tid : Nat) (items : List TransactionItem)
    (db : DB) :
    (consumeLoop tid items db).1.transaction_items = db.transaction_items := by
  induction items generalizing db with
  | nil => rfl
  | cons it rest ih =>
    rw [consumeLoop]
    cases hlk : lookupStock db.products it.product_id with
    | none => rfl
    | some stock =>
      by_cases h : stock < it.quantity
      · simp [h]
      · simpa [h] using ih _

theorem multiBump_map_fst (items : List TransactionItem) (ps : List (Nat × Int)) :
    (multiBump items ps).map Prod.fst = ps.map Prod.fst := by
  induction items generalizing ps with
  | nil => rfl
  | cons it rest ih =>
    rw [multiBump_cons, ih, bumpStock_map_fst]

theorem multiBump_nonneg (items : List TransactionItem) :
    ∀ ps : List (Nat × Int),
      (∀ it ∈ items, 0 ≤ it.quantity) → (∀ p ∈ ps, 0 ≤ p.2) →
      ∀ p ∈ multiBump items ps, 0 ≤ p.2 := by
  induction items with
  | nil => exact fun _ _ hnn => hnn
  | cons it rest ih =>
    intro ps hq hnn
    rw [multiBump_cons]
    exact ih _ (fun x hx => hq x (List.mem_cons_of_mem _ hx))
      (bumpStock_nonneg_of_nonneg ps it.product_id it.quantity hnn
        (hq it (List.mem_cons_self ..)))

/-- Running the `cancelled → completed` loop on a state whose products table
is the `completed → cancelled` restoration of `ps` succeeds, returns the
products table to exactly `ps`, and appends one completion movement per
item. -/
theorem consumeLoop_restores (tid : Nat) (items : List TransactionItem) :
    ∀ (ps : List (Nat × Int)) (db : DB),
      (∀ it ∈ items, 0 ≤ it.quantity) →
      (∀ it ∈ items, (lookupStock ps it.product_id).isSome = true) →
      (∀ p ∈ ps, 0 ≤ p.2) →
      db.products = multiBump items ps →
      consumeLoop tid items db =
        ({ db with
            products := ps
            inventory_movements :=
              db.inventory_movements ++ items.map (completionMovement tid) },
          none) := by
  induction items with
  | nil =>
    intro ps db _ _ _ hdb
    have hps : db.products = ps := hdb
    rw [consumeLoop, List.map_nil, List.append_nil, ← hps]
  | cons it rest ih =>
    intro ps db hq hex hnn hdb
    obtain ⟨s, hs⟩ := Option.isSome_iff_exists.mp (hex it (List.mem_cons_self ..))
    have hs_nonneg : 0 ≤ s := by
      obtain ⟨p, hp, _, hsnd⟩ := exists_of_lookupStock ps it.product_id s hs
      have := hnn p hp
      omega
    have hsum : 0 ≤ sumQuantities it.product_id rest :=
      sumQuantities_nonneg it.product_id rest
        (fun x hx => hq x (List.mem_cons_of_mem _ hx))
    have hlk : lookupStock db.products it.product_id =
        some (s + it.quantity + sumQuantities it.product_id rest) := by
      rw [hdb, multiBump_cons, lookupStock_multiBump, lookupStock_bumpStock_self, hs]
      rfl
    have hge : ¬(s + it.quantity + sumQuantities it.product_id rest < it.quantity) := by
      omega
    rw [consumeLoop, hlk]
    dsimp only
    rw [if_neg hge]
    have hdb1 : ({ db with
        products := bumpStock db.products it.product_id (-it.quantity)
        inventory_movements :=
          db.inventory_movements ++ [completionMovement tid it] } : DB).products =
        multiBump rest ps := by
      show bumpStock db.products it.product_id (-it.quantity) = multiBump rest ps
      rw [hdb, multiBump_cons, bumpStock_multiBump, bumpStock_cancel]
    rw [ih ps _ (fun x hx => hq x (List.mem_cons_of_mem _ hx))
      (fun x hx => hex x (List.mem_cons_of_mem _ hx)) hnn hdb1]
    simp

/-- The `cancelled → completed` loop preserves the state invariant, on success
and on failure alike: each iteration's decrement is guarded by the stock
check, so the partial state left by a mid-loop failure is still nonnegative. -/
theorem consumeLoop_invariant (tid : Nat) (items : List TransactionItem) :
    ∀ db : DB, Invariant db → Invariant (consumeLoop tid items db).1 := by
  induction items with
  | nil => exact fun db h => h
  | cons it rest ih =>
    intro db h
    obtain ⟨hnn, hnd, hitems⟩ := h
    rw [consumeLoop]
    cases hlk : lookupStock db.products it.product_id with
    | none => exact ⟨hnn, hnd, hitems⟩
    | some stock =>
      dsimp only
      by_cases hlt : stock < it.quantity
      · rw [if_pos hlt]
        exact ⟨hnn, hnd, hitems⟩
      · rw [if_neg hlt]
        apply ih
        refine ⟨?_, ?_, hitems⟩
        · exact bumpStock_nonneg_of_lookup db.products it.product_id
            (-it.quantity) stock hnn hnd hlk (by omega)
        · show ((bumpStock db.products it.product_id (-it.quantity)).map
            Prod.fst).Nodup
          rw [bumpStock_map_fst]
          exact hnd

theorem restoreLoop_invariant (tid : Nat) (items : List TransactionItem)
    (db : DB) (hq : ∀ it ∈ items, 0 ≤ it.quantity) (h : Invariant db) :
    Invariant (restoreLoop tid items db) := by
  obtain ⟨hnn, hnd, hitems⟩ := h
  rw [restoreLoop_spec]
  refine ⟨multiBump_nonneg items db.products hq hnn, ?_, hitems⟩
  show ((multiBump items db.products).map Prod.fst).Nodup
  rw [multiBump_map_fst]
  exact hnd

/-! ## handleStatusChange characterizations -/

theorem handleStatusChange_completed_cancelled (tid : Nat) (db : DB) :
    handleStatusChange tid .completed .cancelled db =
      (restoreLoop tid (itemsForTransaction db tid) db, none) := by
  unfold handleStatusChange
  cases h : itemsForTransaction db tid with
  | nil => simp [h, restoreLoop]
  | cons x xs => simp [h]

theorem handleStatusChange_cancelled_completed (tid : Nat) (db : DB) :
    handleStatusChange tid .cancelled .completed db =
      consumeLoop tid (itemsForTransaction db tid) db := by
  unfold handleStatusChange
  cases h : itemsForTransaction db tid with
  | nil => simp [h, consumeLoop]
  | cons x xs => simp [h]

theorem handleStatusChange_no_effect (tid : Nat) (c n : TxStatus) (db : DB)
    (h1 : ¬(c = .completed ∧ n = .cancelled))
    (h2 : ¬(c = .cancelled ∧ n = .completed)) :
    handleStatusChange tid c n db = (db, none) := by
  unfold handleStatusChange
  by_cases hcn : c = n
  · simp [hcn]
  · cases hitems : itemsForTransaction db tid with
    | nil => simp [hcn, hitems]
    | cons x xs => simp [hcn, hitems, h1, h2]

theorem handleStatusChange_transactions (tid : Nat) (c n : TxStatus) (db : DB) :
    (handleStatusChange tid c n db).1.transactions = db.transactions := by
  unfold handleStatusChange
  by_cases hcn : c = n
  · simp [hcn]
  · cases hitems : itemsForTransaction db tid with
    | nil => simp [hcn, hitems]
    | cons x xs =>
      by_cases hrc : c = .completed ∧ n = .cancelled
      · have hcc : ¬(c = .cancelled ∧ n = .completed) := by
          rintro ⟨h3, _⟩
          rw [hrc.1] at h3
          exact absurd h3 (by decide)
        simp [hcn, hitems, hrc, hcc, restoreLoop_spec]
      · by_cases hcc : c = .cancelled ∧ n = .completed
        · simp [hcn, hitems, hrc, hcc, consumeLoop_transactions]
        · simp [hcn, hitems, hrc, hcc]

theorem handleStatusChange_transaction_items (tid : Nat) (c n : TxStatus)
    (db : DB) :
    (handleStatusChange tid c n db).1.transaction_items = db.transaction_items := by
  unfold handleStatusChange
  by_cases hcn : c = n
  · simp [hcn]
  · cases hitems : itemsForTransaction db tid with
    | nil => simp [hcn, hitems]
    | cons x xs =>
      by_cases hrc : c = .completed ∧ n = .cancelled
      · have hcc : ¬(c = .cancelled ∧ n = .completed) := by
          rintro ⟨h3, _⟩
          rw [hrc.1] at h3
          exact absurd h3 (by decide)
        simp [hcn, hitems, hrc, hcc, restoreLoop_spec]
      · by_cases hcc : c = .cancelled ∧ n = .completed
        · simp [hcn, hitems, hrc, hcc, consumeLoop_transaction_items]
        · simp [hcn, hitems, hrc, hcc]

/-- Both status-transition loops preserve the invariant, so does the
dispatcher. -/
theorem handleStatusChange_invariant (tid : Nat) (c n : TxStatus) (db : DB)
    (h : Invariant db) : Invariant (handleStatusChange tid c n db).1 := by
  unfold handleStatusChange
  by_cases hcn : c = n
  · simpa [hcn] using h
  · cases hitems : itemsForTransaction db tid with
    | nil => simpa [hcn, hitems] using h
    | cons x xs =>
      have hq : ∀ it ∈ itemsForTransaction db tid, 0 ≤ it.quantity := by
        intro it hit
        exact h.2.2 it (List.mem_of_mem_filter hit)
      by_cases hrc : c = .completed ∧ n = .cancelled
      · have hcc : ¬(c = .cancelled ∧ n = .completed) := by
          rintro ⟨h3, _⟩
          rw [hrc.1] at h3
          exact absurd h3 (by decide)
        simp only [if_neg hcn, hitems]
        rw [if_neg (by simp)] at *
        simpa [hcn, hitems, hrc, hcc] using
          restoreLoop_invariant tid (x :: xs) db (hitems ▸ hq) h
      · by_cases hcc : c = .cancelled ∧ n = .completed
        · simpa [hcn, hitems, hrc, hcc] using
            consumeLoop_invariant tid (x :: xs) db h
        · simpa [hcn, hitems, hrc, hcc] using h

/-! ## statusStep and updateTransaction characterizations -/

theorem statusStep_change (input : UpdateTransactionInput)
    (cur : TransactionRow) (db : DB) (s : TxStatus)
    (h : input.status = some s) (hne : s ≠ cur.status) :
    statusStep input cur db = handleStatusChange input.id cur.status s db := by
  unfold statusStep
  rw [h]
  dsimp only
  rw [if_pos hne]

theorem statusStep_frozen (input : UpdateTransactionInput)
    (cur : TransactionRow) (db : DB)
    (h : ∀ s, input.status = some s → s = cur.status) :
    statusStep input cur db = (db, none) := by
  unfold statusStep
  cases hs : input.status with
  | none => rfl
  | some s =>
    dsimp only
    rw [if_neg]
    simpa using h s hs

theorem statusStep_transactions (input : UpdateTransactionInput)
    (cur : TransactionRow) (db : DB) :
    (statusStep input cur db).1.transactions = db.transactions := by
  unfold statusStep
  cases hs : input.status with
  | none => rfl
  | some s =>
    dsimp only
    by_cases hne : s ≠ cur.status
    · rw [if_pos hne]
      exact handleStatusChange_transactions input.id cur.status s db
    · rw [if_neg hne]

theorem statusStep_transaction_items (input : UpdateTransactionInput)
    (cur : TransactionRow) (db : DB) :
    (statusStep input cur db).1.transaction_items = db.transaction_items := by
  unfold statusStep
  cases hs : input.status with
  | none => rfl
  | some s =>
    dsimp only
    by_cases hne : s ≠ cur.status
    · rw [if_pos hne]
      exact handleStatusChange_transaction_items input.id cur.status s db
    · rw [if_neg hne]

theorem statusStep_invariant (input : UpdateTransactionInput)
    (cur : TransactionRow) (db : DB) (h : Invariant db) :
    Invariant (statusStep input cur db).1 := by
  unfold statusStep
  cases hs : input.status with
  | none => exact h
  | some s =>
    dsimp only
    by_cases hne : s ≠ cur.status
    · rw [if_pos hne]
      exact handleStatusChange_invariant input.id cur.status s db h
    · rw [if_neg hne]
      exact h

theorem applyTransactionPatch_id (input : UpdateTransactionInput) (fa : Int)
    (now : Nat) (row : TransactionRow) :
    (applyTransactionPatch input fa now row).id = row.id := rfl

theorem updateTransaction_spec_ok (input : UpdateTransactionInput) (now : Nat)
    (db db1 : DB) (cur : TransactionRow)
    (hc : lookupTransaction db.transactions input.id = some cur)
    (hss : statusStep input cur db = (db1, none)) :
    updateTransaction input now db =
      ({ db1 with
          transactions := db1.transactions.map fun t =>
            if t.id = input.id then
              applyTransactionPatch input (updFinalAmount input cur) now t
            else t },
        .ok (applyTransactionPatch input (updFinalAmount input cur) now cur)) := by
  unfold updateTransaction
  rw [hc]
  dsimp only
  rw [hss]

theorem updateTransaction_spec_error (input : UpdateTransactionInput)
    (now : Nat) (db db1 : DB) (cur : TransactionRow) (e : DbError)
    (hc : lookupTransaction db.transactions input.id = some cur)
    (hss : statusStep input cur db = (db1, some e)) :
    updateTransaction input now db = (db1, .error e) := by
  unfold updateTransaction
  rw [hc]
  dsimp only
  rw [hss]

theorem patchFun_id (input : UpdateTransactionInput) (fa : Int) (now : Nat) :
    ∀ t : TransactionRow,
      ((fun t => if t.id = input.id then applyTransactionPatch input fa now t
        else t) t).id = t.id := by
  intro t
  by_cases h : t.id = input.id <;> simp [h, applyTransactionPatch_id]

/-- The `UPDATE ... WHERE id = ... RETURNING` round trip: after mapping the
patch over the table, looking the id up yields the patched stored row. -/
theorem lookupTransaction_patched (ts : List TransactionRow)
    (input : UpdateTransactionInput) (fa : Int) (now : Nat)
    (cur : TransactionRow) (hc : lookupTransaction ts input.id = some cur) :
    lookupTransaction (ts.map fun t => if t.id = input.id then
      applyTransactionPatch input fa now t else t) input.id =
      some (applyTransactionPatch input fa now cur) := by
  rw [lookupTransaction_map _ _ _ (patchFun_id input fa now), hc]
  show some (if cur.id = input.id then applyTransactionPatch input fa now cur
    else cur) = _
  rw [if_pos (lookupTransaction_id ts input.id cur hc)]

/-! ## saleItemsLoop lemmas -/

theorem saleItemsLoop_invariant (tid : Nat)
    (items : List CreateTransactionItemInput) :
    ∀ db : DB, (∀ it ∈ items, 0 ≤ it.quantity) → Invariant db →
      Invariant (saleItemsLoop tid items db).1 := by
  induction items with
  | nil => exact fun _ _ h => h
  | cons it rest ih =>
    intro db hq h
    obtain ⟨hnn, hnd, hitems⟩ := h
    rw [saleItemsLoop]
    cases hlk : lookupStock db.products it.product_id with
    | none => exact ⟨hnn, hnd, hitems⟩
    | some stock =>
      dsimp only
      by_cases hlt : stock < it.quantity
      · rw [if_pos hlt]
        exact ⟨hnn, hnd, hitems⟩
      · rw [if_neg hlt]
        apply ih _ (fun x hx => hq x (List.mem_cons_of_mem _ hx))
        refine ⟨?_, ?_, ?_⟩
        · exact setStock_nonneg db.products it.product_id (stock - it.quantity)
            hnn (by omega)
        · show ((setStock db.products it.product_id (stock - it.quantity)).map
            Prod.fst).Nodup
          rw [setStock_map_fst]
          exact hnd
        · intro x hx
          rcases List.mem_append.mp hx with hx1 | hx1
          · exact hitems x hx1
          · have hq0 := hq it (List.mem_cons_self ..)
            simp only [List.mem_singleton] at hx1
            subst hx1
            exact hq0

theorem saleItemsLoop_err_of_notfound (tid : Nat)
    (items : List CreateTransactionItemInput) :
    ∀ db : DB, (∃ it ∈ items, lookupStock db.products it.product_id = none) →
      (saleItemsLoop tid items db).2.isSome = true := by
  induction items with
  | nil =>
    rintro db ⟨it, hmem, _⟩
    simp at hmem
  | cons hd rest ih =>
    rintro db ⟨it, hmem, hnone⟩
    rw [saleItemsLoop]
    cases hlk : lookupStock db.products hd.product_id with
    | none => simp
    | some stock =>
      dsimp only
      by_cases hlt : stock < hd.quantity
      · simp [hlt]
      · rw [if_neg hlt]
        rcases List.mem_cons.mp hmem with rfl | hmem2
        · rw [hlk] at hnone
          cases hnone
        · apply ih
          refine ⟨it, hmem2, ?_⟩
          by_cases hpid : it.product_id = hd.product_id
          · rw [hpid] at hnone
            rw [hnone] at hlk
            cases hlk
          · show lookupStock (setStock db.products hd.product_id
              (stock - hd.quantity)) it.product_id = none
            rw [lookupStock_setStock_other _ _ _ _ hpid]
            exact hnone

theorem saleItemsLoop_err_of_insufficient (tid : Nat)
    (items : List CreateTransactionItemInput) :
    ∀ db : DB, (∀ it ∈ items, 0 ≤ it.quantity) →
      (∃ it ∈ items, ∃ s, lookupStock db.products it.product_id = some s ∧
        s < it.quantity) →
      (saleItemsLoop tid items db).2.isSome = true := by
  induction items with
  | nil =>
    rintro db _ ⟨it, hmem, _⟩
    simp at hmem
  | cons hd rest ih =>
    rintro db hq ⟨it, hmem, s, hsome, hslt⟩
    rw [saleItemsLoop]
    cases hlk : lookupStock db.products hd.product_id with
    | none => simp
    | some stock =>
      dsimp only
      by_cases hlt : stock < hd.quantity
      · simp [hlt]
      · rw [if_neg hlt]
        rcases List.mem_cons.mp hmem with rfl | hmem2
        · rw [hlk] at hsome
          injection hsome with hs
          omega
        · apply ih _ (fun x hx => hq x (List.mem_cons_of_mem _ hx))
          by_cases hpid : it.product_id = hd.product_id
          · refine ⟨it, hmem2, stock - hd.quantity, ?_, ?_⟩
            · show lookupStock (setStock db.products hd.product_id
                (stock - hd.quantity)) it.product_id = some (stock - hd.quantity)
              rw [hpid, lookupStock_setStock_self, hlk]
              rfl
            · have hq0 := hq hd (List.mem_cons_self ..)
              rw [hpid, hlk] at hsome
              injection hsome with hs
              omega
          · refine ⟨it, hmem2, s, ?_, hslt⟩
            show lookupStock (setStock db.products hd.product_id
              (stock - hd.quantity)) it.product_id = some s
            rw [lookupStock_setStock_other _ _ _ _ hpid]
            exact hsome

/-! ## Concrete states used by counterexamples and witnesses -/

def dbOne10 : DB :=
  { products := [(1, 10)], transactions := [], transaction_items := [],
    inventory_movements := [] }

def dbOne100 : DB :=
  { products := [(1, 100)], transactions := [], transaction_items := [],
    inventory_movements := [] }

def trowCancelled : TransactionRow :=
  { id := 1, customer_id := none, user_id := 1, total_amount := 50,
    discount_amount := 0, final_amount := 50, status := .cancelled,
    payment_method := none, notes := none, created_at := 0, updated_at := 0 }

/-- A cancelled two-item transaction whose second item's product is out of
stock: exercising `cancelled → completed` fails on item 2 after item 1's
effects were written. -/
def dbTwoItems : DB :=
  { products := [(1, 5), (2, 0)]
    transactions := [trowCancelled]
    transaction_items :=
      [{ transaction_id := 1, product_id := 1, quantity := 2, unit_price := 10,
         total_price := 20 },
       { transaction_id := 1, product_id := 2, quantity := 3, unit_price := 10,
         total_price := 30 }]
    inventory_movements := [] }

/-- A cancelled transaction with two line items on the same product: the
first item's decrement succeeds and the second fails the stock check. -/
def dbDupItems : DB :=
  { products := [(1, 3)]
    transactions := [trowCancelled]
    transaction_items :=
      [{ transaction_id := 1, product_id := 1, quantity := 3, unit_price := 10,
         total_price := 30 },
       { transaction_id := 1, product_id := 1, quantity := 5, unit_price := 10,
         total_price := 50 }]
    inventory_movements := [] }

def trowCompleted : TransactionRow :=
  { id := 1, customer_id := none, user_id := 1, total_amount := 20,
    discount_amount := 5, final_amount := 15, status := .completed,
    payment_method := none, notes := none, created_at := 0, updated_at := 0 }

def dbCompleted : DB :=
  { products := [(7, 4)]
    transactions := [trowCompleted]
    transaction_items :=
      [{ transaction_id := 1, product_id := 7, quantity := 2, unit_price := 10,
         total_price := 20 }]
    inventory_movements := [] }

def mvOut5 : CreateInventoryMovementInput :=
  { product_id := 1, movement_type := .stockOut, quantity := 5,
    reference_type := none, reference_id := none, notes := none }

def movOut5 : InventoryMovement :=
  { product_id := 1, movement_type := .stockOut, quantity := 5,
    reference_type := none, reference_id := none, notes := none }

def dbOne10afterOut5 : DB :=
  { products := [(1, 5)], transactions := [], transaction_items := [],
    inventory_movements := [movOut5] }

def mvInNeg50 : CreateInventoryMovementInput :=
  { product_id := 1, movement_type := .stockIn, quantity := -50,
    reference_type := none, reference_id := none, notes := none }

def mvAdjNeg4 : CreateInventoryMovementInput :=
  { product_id := 1, movement_type := .adjustment, quantity := -4,
    reference_type := some "manual", reference_id := none, notes := none }

def mvZero : CreateInventoryMovementInput :=
  { product_id := 1, movement_type := .stockIn, quantity := 0,
    reference_type := none, reference_id := none, notes := none }

/-! ## C1 -/

/-- C1 (amended): after every core operation — successful or failed — every
product's `stock_quantity` is still ≥ 0, and a failing
`createInventoryMovement` or `createTransaction` leaves the entire state
unchanged (their bodies run inside a database transaction).  The original
claim's "any failing operation leaves stock_quantity at its prior value" is
false for `updateTransaction` status transitions, whose loop is not
transaction-wrapped: see the counterexample, where a failing transition
leaves the product's stock at 0 instead of its prior 3. -/
theorem c1_stock_nonneg (db : DB) (hinv : Invariant db) :
    (∀ input : CreateInventoryMovementInput,
      Invariant (createInventoryMovement input db).1 ∧
      ∀ e, (createInventoryMovement input db).2 = .error e →
        (createInventoryMovement input db).1 = db) ∧
    (∀ (input : CreateTransactionInput) (now : Nat),
      ValidCreateTransactionInput input →
      Invariant (createTransaction input now db).1 ∧
      ∀ e, (createTransaction input now db).2 = .error e →
        (createTransaction input now db).1 = db) ∧
    ∀ (input : UpdateTransactionInput) (now : Nat),
      Invariant (updateTransaction input now db).1 := by
  obtain ⟨hnn, hnd, hitems⟩ := hinv
  refine ⟨?_, ?_, ?_⟩
  · intro input
    unfold createInventoryMovement
    cases hlk : lookupStock db.products input.product_id with
    | none => exact ⟨⟨hnn, hnd, hitems⟩, fun _ _ => rfl⟩
    | some s =>
      dsimp only
      by_cases hneg : s + movementDelta input.movement_type input.quantity < 0
      · rw [if_pos hneg]
        exact ⟨⟨hnn, hnd, hitems⟩, fun _ _ => rfl⟩
      · rw [if_neg hneg]
        constructor
        · refine ⟨?_, ?_, hitems⟩
          · exact setStock_nonneg _ _ _ hnn (by omega)
          · show ((setStock db.products input.product_id _).map Prod.fst).Nodup
            rw [setStock_map_fst]
            exact hnd
        · intro e he
          simp at he
  · intro input now hv
    unfold createTransaction runAtomic createTransactionBody
    cases hloop : saleItemsLoop (freshTransactionId db) input.items
        { db with transactions := db.transactions ++ [saleRow input now db] } with
    | mk db2 err =>
      cases err with
      | none =>
        dsimp only
        constructor
        · have hpre := saleItemsLoop_invariant (freshTransactionId db) input.items
            { db with transactions := db.transactions ++ [saleRow input now db] }
            (fun it hit => le_of_lt (hv.2.2 it hit).1) ⟨hnn, hnd, hitems⟩
          rw [hloop] at hpre
          exact hpre
        · intro e he
          simp at he
      | some e =>
        dsimp only
        exact ⟨⟨hnn, hnd, hitems⟩, fun _ _ => rfl⟩
  · intro input now
    unfold updateTransaction
    cases hc : lookupTransaction db.transactions input.id with
    | none => exact ⟨hnn, hnd, hitems⟩
    | some cur =>
      dsimp only
      cases hss : statusStep input cur db with
      | mk db1 err =>
        have hinv1 : Invariant db1 := by
          have hpre := statusStep_invariant input cur db ⟨hnn, hnd, hitems⟩
          rw [hss] at hpre
          exact hpre
        cases err with
        | none => exact hinv1
        | some e => exact hinv1

/-- C1 counterexample: on `dbDupItems` (product 1 at stock 3; a cancelled
transaction with items of quantity 3 and 5 on the same product), the
`cancelled → completed` update fails with insufficient stock, yet product 1's
stock is left at 0 rather than its prior value 3 — the first item's decrement
persisted. -/
theorem c1_counterexample :
    (updateTransaction (statusPatch 1 .completed) 1 dbDupItems).2 =
      .error (.insufficientStock 1 0 5) ∧
    lookupStock dbDupItems.products 1 = some 3 ∧
    lookupStock (updateTransaction (statusPatch 1 .completed) 1
      dbDupItems).1.products 1 = some 0 := by
  decide

theorem c1_witness :
    Invariant dbCompleted ∧
    Invariant (createInventoryMovement
      ⟨7, .stockOut, 3, none, none, none⟩ dbCompleted).1 ∧
    Invariant (updateTransaction (statusPatch 1 .cancelled) 2 dbCompleted).1 := by
  refine ⟨by decide, ?_, ?_⟩
  · exact ((c1_stock_nonneg dbCompleted (by decide)).1
      ⟨7, .stockOut, 3, none, none, none⟩).1
  · exact (c1_stock_nonneg dbCompleted (by decide)).2.2 (statusPatch 1 .cancelled) 2

/-! ## C2 -/

/-- C2: the code violates the claim.  On `dbTwoItems`, updating the cancelled
transaction to `completed` fails on item 2 (product 2 has stock 0), but item
1's effects persist: product 1's stock went from 5 to 3 and one completion
movement row was written, while the transaction row itself still says
`cancelled`.  The loop in `handleStatusChange` runs outside any
`db.transaction`, so there is no rollback. -/
theorem c2_partial_effects :
    (updateTransaction (statusPatch 1 .completed) 1 dbTwoItems).2 =
      .error (.insufficientStock 2 0 3) ∧
    lookupStock (updateTransaction (statusPatch 1 .completed) 1
      dbTwoItems).1.products 1 = some 3 ∧
    (updateTransaction (statusPatch 1 .completed) 1
      dbTwoItems).1.inventory_movements.length = 1 ∧
    (lookupTransaction (updateTransaction (statusPatch 1 .completed) 1
      dbTwoItems).1.transactions 1).map (fun t => t.status) =
      some .cancelled := by
  decide

/-! ## C3 -/

/-- C3 (amended): a successful `createInventoryMovement` persists the ledger
entry with the *input* quantity verbatim — not the signed delta it applied to
the stock.  The applied delta is `movementDelta`; for an `out` movement with
positive input the stored quantity is that positive input while the applied
delta is its negation.  (Only the sale path in `createTransaction` stores
`-quantity`.) -/
theorem c3_ledger_quantity (input : CreateInventoryMovementInput)
    (db db2 : DB) (m : InventoryMovement) (s : Int)
    (hp : lookupStock db.products input.product_id = some s)
    (h : createInventoryMovement input db = (db2, .ok m)) :
    m.quantity = input.quantity ∧
    db2.inventory_movements = db.inventory_movements ++ [m] ∧
    lookupStock db2.products input.product_id =
      some (s + movementDelta input.movement_type input.quantity) := by
  unfold createInventoryMovement at h
  rw [hp] at h
  dsimp only at h
  by_cases hneg : s + movementDelta input.movement_type input.quantity < 0
  · rw [if_pos hneg] at h
    have hsnd := congrArg Prod.snd h
    simp at hsnd
  · rw [if_neg hneg] at h
    have hdb2 := congrArg Prod.fst h
    have hm := congrArg Prod.snd h
    dsimp only at hdb2 hm
    injection hm with hm2
    subst hm2
    refine ⟨rfl, ?_, ?_⟩
    · rw [← hdb2]
    · rw [← hdb2]
      show lookupStock (setStock db.products input.product_id
        (s + movementDelta input.movement_type input.quantity))
        input.product_id = _
      rw [lookupStock_setStock_self, hp]
      rfl

/-- C3 counterexample: an `out` movement of 5 against stock 10 stores ledger
quantity +5, while the delta actually applied to the stock is −5 (10 → 5).
The claim's "the stored quantity is negative for `out`" is false. -/
theorem c3_counterexample :
    ((createInventoryMovement mvOut5 dbOne10).2.toOption.map
      fun m => m.quantity) = some 5 ∧
    lookupStock (createInventoryMovement mvOut5 dbOne10).1.products 1 =
      some 5 ∧
    lookupStock dbOne10.products 1 = some 10 := by
  decide

theorem c3_witness :
    movOut5.quantity = mvOut5.quantity ∧
    dbOne10afterOut5.inventory_movements =
      dbOne10.inventory_movements ++ [movOut5] ∧
    lookupStock dbOne10afterOut5.products 1 =
      some (10 + movementDelta .stockOut 5) :=
  c3_ledger_quantity mvOut5 dbOne10 dbOne10afterOut5 movOut5 10
    (by decide) (by decide)

/-! ## C4 -/

/-- C4 (amended): the applied delta is `quantity` as given for `in` (a
negative quantity is neither rejected nor normalized — it is applied as a
decrease), `-abs(quantity)` for `out`, and `quantity` for `adjustment`; when
`current + delta < 0` the call fails with `InsufficientStock` and changes
nothing, and otherwise the stock becomes `current + delta`. -/
theorem c4_delta_convention (input : CreateInventoryMovementInput) (db : DB)
    (s : Int) (hp : lookupStock db.products input.product_id = some s) :
    movementDelta .stockIn input.quantity = input.quantity ∧
    movementDelta .stockOut input.quantity = -|input.quantity| ∧
    movementDelta .adjustment input.quantity = input.quantity ∧
    (s + movementDelta input.movement_type input.quantity < 0 →
      createInventoryMovement input db =
        (db, .error (.insufficientStock input.product_id s
          |movementDelta input.movement_type input.quantity|))) ∧
    (0 ≤ s + movementDelta input.movement_type input.quantity →
      ∃ m, createInventoryMovement input db =
        ({ db with
            products := setStock db.products input.product_id
              (s + movementDelta input.movement_type input.quantity)
            inventory_movements := db.inventory_movements ++ [m] },
          .ok m)) := by
  refine ⟨rfl, rfl, rfl, ?_, ?_⟩
  · intro hneg
    unfold createInventoryMovement
    rw [hp]
    dsimp only
    rw [if_pos hneg]
  · intro hpos
    unfold createInventoryMovement
    rw [hp]
    dsimp only
    rw [if_neg (by omega)]
    exact ⟨_, rfl⟩

/-- C4 counterexample: an `in` movement with quantity −50 against stock 100
succeeds and leaves stock 50 — the negative quantity was neither rejected
(the call returned ok) nor normalized (the stock decreased). -/
theorem c4_counterexample :
    (createInventoryMovement mvInNeg50 dbOne100).2.toOption.isSome = true ∧
    lookupStock (createInventoryMovement mvInNeg50 dbOne100).1.products 1 =
      some 50 := by
  decide

theorem c4_witness :
    lookupStock dbOne10.products mvAdjNeg4.product_id = some 10 ∧
    (movementDelta .stockIn mvAdjNeg4.quantity = mvAdjNeg4.quantity ∧
     movementDelta .stockOut mvAdjNeg4.quantity = -|mvAdjNeg4.quantity| ∧
     movementDelta .adjustment mvAdjNeg4.quantity = mvAdjNeg4.quantity ∧
     (10 + movementDelta mvAdjNeg4.movement_type mvAdjNeg4.quantity < 0 →
       createInventoryMovement mvAdjNeg4 dbOne10 =
         (dbOne10, .error (.insufficientStock mvAdjNeg4.product_id 10
           |movementDelta mvAdjNeg4.movement_type mvAdjNeg4.quantity|))) ∧
     (0 ≤ 10 + movementDelta mvAdjNeg4.movement_type mvAdjNeg4.quantity →
       ∃ m, createInventoryMovement mvAdjNeg4 dbOne10 =
         ({ dbOne10 with
             products := setStock dbOne10.products mvAdjNeg4.product_id
               (10 + movementDelta mvAdjNeg4.movement_type mvAdjNeg4.quantity)
             inventory_movements := dbOne10.inventory_movements ++ [m] },
           .ok m))) :=
  ⟨by decide, c4_delta_convention mvAdjNeg4 dbOne10 10 (by decide)⟩

/-! ## C9 -/

/-- C9 (amended): a zero-quantity movement is accepted, not rejected — the
input schema only requires an integer.  For an existing product the call
succeeds, persists a ledger entry whose quantity is 0, and leaves every
product's stock value unchanged. -/
theorem c9_zero_quantity (input : CreateInventoryMovementInput) (db : DB)
    (s : Int) (hq : input.quantity = 0)
    (hp : lookupStock db.products input.product_id = some s) (hs : 0 ≤ s) :
    ∃ m, createInventoryMovement input db =
      ({ db with
          products := setStock db.products input.product_id s
          inventory_movements := db.inventory_movements ++ [m] }, .ok m) ∧
      m.quantity = 0 ∧
      lookupStock (createInventoryMovement input db).1.products
        input.product_id = some s ∧
      ∀ q, q ≠ input.product_id →
        lookupStock (createInventoryMovement input db).1.products q =
          lookupStock db.products q := by
  have hd : movementDelta input.movement_type input.quantity = 0 := by
    cases input.movement_type <;> simp [movementDelta, hq]
  refine ⟨{ product_id := input.product_id
            movement_type := input.movement_type
            quantity := input.quantity
            reference_type := input.reference_type
            reference_id := input.reference_id
            notes := input.notes }, ?_, hq, ?_, ?_⟩
  · unfold createInventoryMovement
    rw [hp]
    dsimp only
    rw [hd, add_zero, if_neg (not_lt.mpr hs)]
  · unfold createInventoryMovement
    rw [hp]
    dsimp only
    rw [hd, add_zero, if_neg (not_lt.mpr hs)]
    dsimp only
    rw [lookupStock_setStock_self, hp]
    rfl
  · intro q hqne
    unfold createInventoryMovement
    rw [hp]
    dsimp only
    rw [hd, add_zero, if_neg (not_lt.mpr hs)]
    dsimp only
    exact lookupStock_setStock_other _ _ _ _ hqne

/-- C9 counterexample: a zero-quantity `in` movement on product 1 (stock 10)
succeeds — it does not fail with any error — and persists a ledger row with
quantity 0 while the stock stays 10.  The claim that the call fails with
`InvalidInput` is false: neither the zod input schema (which only requires an
integer) nor the handler rejects quantity 0. -/
theorem c9_counterexample :
    (createInventoryMovement mvZero dbOne10).2.toOption.isSome = true ∧
    ((createInventoryMovement mvZero dbOne10).2.toOption.map
      fun m => m.quantity) = some 0 ∧
    (createInventoryMovement mvZero dbOne10).1.inventory_movements.length = 1 ∧
    lookupStock (createInventoryMovement mvZero dbOne10).1.products 1 =
      some 10 := by
  decide

theorem c9_witness :
    ∃ m, createInventoryMovement mvZero dbOne10 =
      ({ dbOne10 with
          products := setStock dbOne10.products mvZero.product_id 10
          inventory_movements := dbOne10.inventory_movements ++ [m] }, .ok m) ∧
      m.quantity = 0 ∧
      lookupStock (createInventoryMovement mvZero dbOne10).1.products
        mvZero.product_id = some 10 ∧
      ∀ q, q ≠ mvZero.product_id →
        lookupStock (createInventoryMovement mvZero dbOne10).1.products q =
          lookupStock dbOne10.products q :=
  c9_zero_quantity mvZero dbOne10 10 (by decide) (by decide) (by decide)

/-! ## C5 -/

/-- C5: sale creation is atomic.  If any item of a valid `createTransaction`
input references a missing product or a product whose current stock is below
the item's quantity, the call returns an error and the state is completely
unchanged — no transaction row, no item rows, no movements, no stock change.
The handler body runs inside `db.transaction`, modelled by `runAtomic`. -/
theorem c5_atomic_sale (input : CreateTransactionInput) (now : Nat) (db : DB)
    (hv : ValidCreateTransactionInput input)
    (hfail : ∃ it ∈ input.items,
      lookupStock db.products it.product_id = none ∨
        ∃ s, lookupStock db.products it.product_id = some s ∧
          s < it.quantity) :
    (∃ e, (createTransaction input now db).2 = .error e) ∧
    (createTransaction input now db).1 = db := by
  have hq : ∀ it ∈ input.items, 0 ≤ it.quantity :=
    fun it hit => le_of_lt (hv.2.2 it hit).1
  have herr : (saleItemsLoop (freshTransactionId db) input.items
      { db with
          transactions := db.transactions ++ [saleRow input now db] }).2.isSome =
      true := by
    obtain ⟨it, hit, hcase⟩ := hfail
    rcases hcase with hnone | ⟨s, hsome, hlt⟩
    · exact saleItemsLoop_err_of_notfound _ _ _ ⟨it, hit, hnone⟩
    · exact saleItemsLoop_err_of_insufficient _ _ _ hq ⟨it, hit, s, hsome, hlt⟩
  unfold createTransaction runAtomic createTransactionBody
  cases hloop : saleItemsLoop (freshTransactionId db) input.items
      { db with transactions := db.transactions ++ [saleRow input now db] } with
  | mk db2 err =>
    rw [hloop] at herr
    cases err with
    | none => simp at herr
    | some e =>
      dsimp only
      exact ⟨⟨e, rfl⟩, rfl⟩

def saleTwoItems : CreateTransactionInput :=
  { customer_id := none, user_id := 1, total_amount := 100,
    discount_amount := 0, payment_method := none, notes := none,
    items := [⟨1, 4, 10⟩, ⟨2, 1, 10⟩] }

theorem c5_witness :
    (∃ e, (createTransaction saleTwoItems 3 dbTwoItems).2 = .error e) ∧
    (createTransaction saleTwoItems 3 dbTwoItems).1 = dbTwoItems :=
  c5_atomic_sale saleTwoItems 3 dbTwoItems (by decide)
    ⟨⟨2, 1, 10⟩, by decide, Or.inr ⟨0, by decide, by decide⟩⟩

/-! ## C6 -/

/-- C6: starting from a completed transaction whose items all reference
existing products, the round trip `completed → cancelled → completed` (with
no other operations in between) succeeds, returns every product's stock to
exactly its starting value, and appends exactly one `in` ledger entry per
item with reference type `transaction_cancellation` followed by one `out`
entry per item with reference type `transaction_completion` — 2×N new rows
for N items. -/
theorem c6_transition_symmetry (db : DB) (tid : Nat) (t : TransactionRow)
    (n1 n2 : Nat) (hinv : Invariant db)
    (ht : lookupTransaction db.transactions tid = some t)
    (hst : t.status = .completed)
    (hex : ∀ it ∈ itemsForTransaction db tid,
      (lookupStock db.products it.product_id).isSome = true) :
    ∃ r1 r2,
      (updateTransaction (statusPatch tid .cancelled) n1 db).2 = .ok r1 ∧
      (updateTransaction (statusPatch tid .completed) n2
        (updateTransaction (statusPatch tid .cancelled) n1 db).1).2 = .ok r2 ∧
      (updateTransaction (statusPatch tid .completed) n2
        (updateTransaction (statusPatch tid .cancelled) n1 db).1).1.products =
        db.products ∧
      (updateTransaction (statusPatch tid .completed) n2
        (updateTransaction (statusPatch tid .cancelled) n1
          db).1).1.inventory_movements =
        db.inventory_movements ++
          (itemsForTransaction db tid).map (cancellationMovement tid) ++
          (itemsForTransaction db tid).map (completionMovement tid) := by
  obtain ⟨hnn, hnd, hitems⟩ := hinv
  have hq : ∀ it ∈ itemsForTransaction db tid, 0 ≤ it.quantity :=
    fun it hit => hitems it (List.mem_of_mem_filter hit)
  have hne1 : (.cancelled : TxStatus) ≠ t.status := by
    rw [hst]
    decide
  have hss1 : statusStep (statusPatch tid .cancelled) t db =
      (restoreLoop tid (itemsForTransaction db tid) db, none) := by
    rw [statusStep_change (statusPatch tid .cancelled) t db .cancelled rfl hne1,
      hst]
    exact handleStatusChange_completed_cancelled tid db
  have h1 := updateTransaction_spec_ok (statusPatch tid .cancelled) n1 db
    (restoreLoop tid (itemsForTransaction db tid) db) t ht hss1
  have hprod1 : (updateTransaction (statusPatch tid .cancelled) n1 db).1.products =
      multiBump (itemsForTransaction db tid) db.products := by
    rw [h1]
    show (restoreLoop tid (itemsForTransaction db tid) db).products = _
    rw [restoreLoop_spec]
  have hmov1 : (updateTransaction (statusPatch tid .cancelled) n1
      db).1.inventory_movements =
      db.inventory_movements ++
        (itemsForTransaction db tid).map (cancellationMovement tid) := by
    rw [h1]
    show (restoreLoop tid (itemsForTransaction db tid) db).inventory_movements = _
    rw [restoreLoop_spec]
  have hti1 : (updateTransaction (statusPatch tid .cancelled) n1
      db).1.transaction_items = db.transaction_items := by
    rw [h1]
    show (restoreLoop tid (itemsForTransaction db tid) db).transaction_items = _
    rw [restoreLoop_spec]
  have hitems1 : itemsForTransaction
      (updateTransaction (statusPatch tid .cancelled) n1 db).1 tid =
      itemsForTransaction db tid := by
    unfold itemsForTransaction
    rw [hti1]
  have htr1 : (updateTransaction (statusPatch tid .cancelled) n1
      db).1.transactions =
      db.transactions.map fun u =>
        if u.id = (statusPatch tid .cancelled).id then
          applyTransactionPatch (statusPatch tid .cancelled)
            (updFinalAmount (statusPatch tid .cancelled) t) n1 u
        else u := by
    rw [h1]
    show ((restoreLoop tid (itemsForTransaction db tid) db).transactions).map _ = _
    rw [restoreLoop_spec]
  have ht2 : lookupTransaction
      (updateTransaction (statusPatch tid .cancelled) n1 db).1.transactions tid =
      some (applyTransactionPatch (statusPatch tid .cancelled)
        (updFinalAmount (statusPatch tid .cancelled) t) n1 t) := by
    rw [htr1]
    exact lookupTransaction_patched db.transactions (statusPatch tid .cancelled)
      (updFinalAmount (statusPatch tid .cancelled) t) n1 t ht
  have hr1status : (applyTransactionPatch (statusPatch tid .cancelled)
      (updFinalAmount (statusPatch tid .cancelled) t) n1 t).status =
      .cancelled := rfl
  have hne2 : (.completed : TxStatus) ≠
      (applyTransactionPatch (statusPatch tid .cancelled)
        (updFinalAmount (statusPatch tid .cancelled) t) n1 t).status := by
    rw [hr1status]
    decide
  have hss2 : statusStep (statusPatch tid .completed)
      (applyTransactionPatch (statusPatch tid .cancelled)
        (updFinalAmount (statusPatch tid .cancelled) t) n1 t)
      (updateTransaction (statusPatch tid .cancelled) n1 db).1 =
      ({ (updateTransaction (statusPatch tid .cancelled) n1 db).1 with
          products := db.products
          inventory_movements :=
            (updateTransaction (statusPatch tid .cancelled) n1
              db).1.inventory_movements ++
              (itemsForTransaction db tid).map (completionMovement tid) },
        none) := by
    rw [statusStep_change _ _ _ .completed rfl hne2, hr1status,
      handleStatusChange_cancelled_completed]
    simp only [statusPatch_id]
    rw [hitems1]
    exact consumeLoop_restores tid (itemsForTransaction db tid) db.products
      (updateTransaction (statusPatch tid .cancelled) n1 db).1 hq hex hnn hprod1
  have h2 := updateTransaction_spec_ok (statusPatch tid .completed) n2
    (updateTransaction (statusPatch tid .cancelled) n1 db).1 _
    (applyTransactionPatch (statusPatch tid .cancelled)
      (updFinalAmount (statusPatch tid .cancelled) t) n1 t) ht2 hss2
  refine ⟨applyTransactionPatch (statusPatch tid .cancelled)
      (updFinalAmount (statusPatch tid .cancelled) t) n1 t,
    applyTransactionPatch (statusPatch tid .completed)
      (updFinalAmount (statusPatch tid .completed)
        (applyTransactionPatch (statusPatch tid .cancelled)
          (updFinalAmount (statusPatch tid .cancelled) t) n1 t)) n2
      (applyTransactionPatch (statusPatch tid .cancelled)
        (updFinalAmount (statusPatch tid .cancelled) t) n1 t), ?_, ?_, ?_, ?_⟩
  · exact congrArg Prod.snd h1
  · exact congrArg Prod.snd h2
  · exact congrArg (fun x => x.1.products) h2
  · have h4 := congrArg (fun x => x.1.inventory_movements) h2
    dsimp only at h4
    rw [h4, hmov1]

theorem c6_witness :
    ∃ r1 r2,
      (updateTransaction (statusPatch 1 .cancelled) 5 dbCompleted).2 = .ok r1 ∧
      (updateTransaction (statusPatch 1 .completed) 6
        (updateTransaction (statusPatch 1 .cancelled) 5 dbCompleted).1).2 =
        .ok r2 ∧
      (updateTransaction (statusPatch 1 .completed) 6
        (updateTransaction (statusPatch 1 .cancelled) 5
          dbCompleted).1).1.products = dbCompleted.products ∧
      (updateTransaction (statusPatch 1 .completed) 6
        (updateTransaction (statusPatch 1 .cancelled) 5
          dbCompleted).1).1.inventory_movements =
        dbCompleted.inventory_movements ++
          (itemsForTransaction dbCompleted 1).map (cancellationMovement 1) ++
          (itemsForTransaction dbCompleted 1).map (completionMovement 1) :=
  c6_transition_symmetry dbCompleted 1 trowCompleted 5 6 (by decide) (by decide)
    (by decide) (by decide)

/-! ## C7 -/

/-- C7: when an `updateTransaction` succeeds, the returned and persisted
`final_amount` equals the effective total minus the effective discount — the
patched value where present, the stored value otherwise — whenever either
amount is in the patch, and stays at its stored value when neither is. -/
theorem c7_final_amount (input : UpdateTransactionInput) (now : Nat) (db : DB)
    (cur row : TransactionRow)
    (hc : lookupTransaction db.transactions input.id = some cur)
    (hr : (updateTransaction input now db).2 = .ok row) :
    ((input.total_amount.isSome || input.discount_amount.isSome) = true →
      row.final_amount =
        input.total_amount.getD cur.total_amount -
          input.discount_amount.getD cur.discount_amount) ∧
    (input.total_amount = none → input.discount_amount = none →
      row.final_amount = cur.final_amount) ∧
    lookupTransaction (updateTransaction input now db).1.transactions
      input.id = some row := by
  cases hss : statusStep input cur db with
  | mk db1 err =>
    cases err with
    | some e =>
      rw [updateTransaction_spec_error input now db db1 cur e hc hss] at hr
      simp at hr
    | none =>
      have hspec := updateTransaction_spec_ok input now db db1 cur hc hss
      rw [hspec] at hr
      dsimp only at hr
      injection hr with hrow
      subst hrow
      have htr : db1.transactions = db.transactions := by
        have h := statusStep_transactions input cur db
        rw [hss] at h
        exact h
      refine ⟨?_, ?_, ?_⟩
      · intro hcond
        simp [applyTransactionPatch, updFinalAmount, hcond]
      · intro h1 h2
        simp [applyTransactionPatch, updFinalAmount, h1, h2]
      · rw [hspec]
        show lookupTransaction (db1.transactions.map _) input.id = _
        rw [htr]
        exact lookupTransaction_patched db.transactions input
          (updFinalAmount input cur) now cur hc

def patchTotal30 : UpdateTransactionInput :=
  { id := 1, customer_id := none, total_amount := some 30,
    discount_amount := none, status := none, payment_method := none,
    notes := none }

def rowC7 : TransactionRow :=
  { id := 1, customer_id := none, user_id := 1, total_amount := 30,
    discount_amount := 5, final_amount := 25, status := .completed,
    payment_method := none, notes := none, created_at := 0, updated_at := 9 }

theorem c7_witness :
    ((patchTotal30.total_amount.isSome ||
        patchTotal30.discount_amount.isSome) = true →
      rowC7.final_amount =
        patchTotal30.total_amount.getD trowCompleted.total_amount -
          patchTotal30.discount_amount.getD trowCompleted.discount_amount) ∧
    (patchTotal30.total_amount = none → patchTotal30.discount_amount = none →
      rowC7.final_amount = trowCompleted.final_amount) ∧
    lookupTransaction
      (updateTransaction patchTotal30 9 dbCompleted).1.transactions
      patchTotal30.id = some rowC7 :=
  c7_final_amount patchTotal30 9 dbCompleted trowCompleted rowC7
    (by decide) (by decide)

/-! ## C8 -/

/-- C8: a status update whose (from, to) pair is neither
(completed, cancelled) nor (cancelled, completed) — including any patch with
no status, an unchanged status, and all transitions involving `pending` —
changes no product's stock and creates no inventory movement row. -/
theorem c8_no_inventory_effects (input : UpdateTransactionInput) (now : Nat)
    (db : DB) (cur : TransactionRow)
    (hc : lookupTransaction db.transactions input.id = some cur)
    (hns : ∀ s, input.status = some s →
      ¬(cur.status = .completed ∧ s = .cancelled) ∧
      ¬(cur.status = .cancelled ∧ s = .completed)) :
    (updateTransaction input now db).1.products = db.products ∧
    (updateTransaction input now db).1.inventory_movements =
      db.inventory_movements := by
  have hss : statusStep input cur db = (db, none) := by
    unfold statusStep
    cases hs : input.status with
    | none => rfl
    | some s =>
      dsimp only
      by_cases hne : s ≠ cur.status
      · rw [if_pos hne]
        exact handleStatusChange_no_effect input.id cur.status s db
          (hns s hs).1 (hns s hs).2
      · rw [if_neg hne]
  rw [updateTransaction_spec_ok input now db db cur hc hss]
  exact ⟨rfl, rfl⟩

def trowPending : TransactionRow :=
  { id := 2, customer_id := none, user_id := 1, total_amount := 40,
    discount_amount := 0, final_amount := 40, status := .pending,
    payment_method := none, notes := none, created_at := 0, updated_at := 0 }

def dbPending : DB :=
  { products := [(3, 6)]
    transactions := [trowPending]
    transaction_items :=
      [{ transaction_id := 2, product_id := 3, quantity := 4, unit_price := 10,
         total_price := 40 }]
    inventory_movements := [] }

theorem c8_witness :
    (updateTransaction (statusPatch 2 .completed) 4 dbPending).1.products =
      dbPending.products ∧
    (updateTransaction (statusPatch 2 .completed) 4
      dbPending).1.inventory_movements = dbPending.inventory_movements :=
  c8_no_inventory_effects (statusPatch 2 .completed) 4 dbPending trowPending
    (by decide)
    (by
      intro s hs
      have h : s = .completed := by
        simpa [statusPatch] using hs.symm
      subst h
      exact ⟨by decide, by decide⟩)

/-! ## C10 -/

/-- C10: on a successful `updateTransaction`, every transaction field not in
the patch keeps its stored value — `id`, `user_id` and `created_at` are never
patchable, `final_amount` changes only when an amount is patched — while
`updated_at` is refreshed, and the transaction's item rows are untouched. -/
theorem c10_update_frame (input : UpdateTransactionInput) (now : Nat)
    (db : DB) (cur row : TransactionRow)
    (hc : lookupTransaction db.transactions input.id = some cur)
    (hr : (updateTransaction input now db).2 = .ok row) :
    row.id = cur.id ∧
    row.user_id = cur.user_id ∧
    row.created_at = cur.created_at ∧
    (input.customer_id = none → row.customer_id = cur.customer_id) ∧
    (input.total_amount = none → row.total_amount = cur.total_amount) ∧
    (input.discount_amount = none →
      row.discount_amount = cur.discount_amount) ∧
    (input.status = none → row.status = cur.status) ∧
    (input.payment_method = none →
      row.payment_method = cur.payment_method) ∧
    (input.notes = none → row.notes = cur.notes) ∧
    (input.total_amount = none → input.discount_amount = none →
      row.final_amount = cur.final_amount) ∧
    row.updated_at = now ∧
    (updateTransaction input now db).1.transaction_items =
      db.transaction_items := by
  cases hss : statusStep input cur db with
  | mk db1 err =>
    cases err with
    | some e =>
      rw [updateTransaction_spec_error input now db db1 cur e hc hss] at hr
      simp at hr
    | none =>
      have hspec := updateTransaction_spec_ok input now db db1 cur hc hss
      rw [hspec] at hr
      dsimp only at hr
      injection hr with hrow
      subst hrow
      have hti : db1.transaction_items = db.transaction_items := by
        have h := statusStep_transaction_items input cur db
        rw [hss] at h
        exact h
      refine ⟨rfl, rfl, rfl, ?_, ?_, ?_, ?_, ?_, ?_, ?_, rfl, ?_⟩
      · intro h
        simp [applyTransactionPatch, h]
      · intro h
        simp [applyTransactionPatch, h]
      · intro h
        simp [applyTransactionPatch, h]
      · intro h
        simp [applyTransactionPatch, h]
      · intro h
        simp [applyTransactionPatch, h]
      · intro h
        simp [applyTransactionPatch, h]
      · intro h1 h2
        simp [applyTransactionPatch, updFinalAmount, h1, h2]
      · rw [hspec]
        exact hti

def patchNotes : UpdateTransactionInput :=
  { id := 1, customer_id := none, total_amount := none,
    discount_amount := none, status := none, payment_method := none,
    notes := some (some "checked") }

def rowC10 : TransactionRow :=
  { id := 1, customer_id := none, user_id := 1, total_amount := 20,
    discount_amount := 5, final_amount := 15, status := .completed,
    payment_method := none, notes := some "checked", created_at := 0,
    updated_at := 11 }

theorem c10_witness :
    rowC10.id = trowCompleted.id ∧
    rowC10.user_id = trowCompleted.user_id ∧
    rowC10.created_at = trowCompleted.created_at ∧
    (patchNotes.customer_id = none →
      rowC10.customer_id = trowCompleted.customer_id) ∧
    (patchNotes.total_amount = none →
      rowC10.total_amount = trowCompleted.total_amount) ∧
    (patchNotes.discount_amount = none →
      rowC10.discount_amount = trowCompleted.discount_amount) ∧
    (patchNotes.status = none → rowC10.status = trowCompleted.status) ∧
    (patchNotes.payment_method = none →
      rowC10.payment_method = trowCompleted.payment_method) ∧
    (patchNotes.notes = none → rowC10.notes = trowCompleted.notes) ∧
    (patchNotes.total_amount = none → patchNotes.discount_amount = none →
      rowC10.final_amount = trowCompleted.final_amount) ∧
    rowC10.updated_at = 11 ∧
    (updateTransaction patchNotes 11 dbCompleted).1.transaction_items =
      dbCompleted.transaction_items :=
  c10_update_frame patchNotes 11 dbCompleted trowCompleted rowC10
    (by decide) (by decide)

end StockCore
